import Mathlib

/-!
# Verification of the federated search aggregator (`src/server.ts`)

This file shallowly embeds the search-aggregation core of the repository:
instance health tracking, cache, batched first-success racing with
cancellation, the structured-JSON and HTML-scrape extraction paths,
category filtering, result normalization and the `/api/search` response
contract.  Network effects are modelled by an explicit environment that
maps each outbound request URL to its outcome; JavaScript `Map`s become
association lists; JavaScript exceptions become `Option`/`Except`
results; `Date.now()` becomes an explicit `now : Nat` (milliseconds).
-/

namespace SparkSearch

/-! ## JavaScript string semantics helpers -/

/-- JS truthiness of a possibly-`undefined` string (`undefined`, `null` and
`""` are falsy; every other string is truthy). -/
def truthy : Option String → Bool
  | none => false
  | some s => s ≠ ""

/-- JS `a || b` where `a` is a possibly-undefined string and `b` a string:
returns `a` when truthy, else `b`. -/
def jsOrS (a : Option String) (b : String) : String :=
  match a with
  | some s => if s = "" then b else s
  | none => b

/-- JS `a || b` on two strings (returns `b` when `a` is empty). -/
def jsOrStr (a b : String) : String := if a = "" then b else a

/-- JS `a || b` on two possibly-undefined strings. -/
def jsOrO (a b : Option String) : Option String := if truthy a then a else b

/-- JS `x || null`: collapses a falsy value to `null` (`none`). -/
def jsOrNull (a : Option String) : Option String := if truthy a then a else none

/-- Does the character list `hay` start with `needle`? -/
def charsStartWith : List Char → List Char → Bool
  | _, [] => true
  | [], _ :: _ => false
  | a :: as, b :: bs => a == b && charsStartWith as bs

/-- Does the character list `hay` contain `needle` as a contiguous run? -/
def charsContain (needle : List Char) : List Char → Bool
  | [] => charsStartWith [] needle
  | c :: rest => charsStartWith (c :: rest) needle || charsContain needle rest

/-- JS `s.includes(sub)`. -/
def strIncludes (s sub : String) : Bool := charsContain sub.data s.data

/-- JS `s.startsWith(pre)` (char-list based, so it computes by `decide`). -/
def strStartsWith (s pre : String) : Bool := charsStartWith s.data pre.data

/-- Drop the first `n` characters. -/
def dropChars (s : String) (n : Nat) : String := ⟨s.data.drop n⟩

/-- The maximal prefix of characters satisfying `p`. -/
def takeWhileChars (p : Char → Bool) (s : String) : String := ⟨s.data.takeWhile p⟩

/-- JS `s.trim()` (modelled over ASCII whitespace). -/
def trimChars (s : String) : String :=
  ⟨((s.data.dropWhile Char.isWhitespace).reverse.dropWhile Char.isWhitespace).reverse⟩

/-- JS `o?.includes(sub)` used as a boolean (optional chaining: `undefined`
is falsy). -/
def optIncludes (o : Option String) (sub : String) : Bool :=
  match o with
  | none => false
  | some s => strIncludes s sub

/-! ## URL model

The server uses the WHATWG `new URL(u).hostname` only on `http(s)` URLs (or
lets the exception propagate to a local `catch`).  `parseHost` models it:
the host is the maximal run after the scheme separator not containing
`/ ? # :`; parsing fails (models the `TypeError`) on non-http(s) input or
an empty host. -/

def hostTerminator (c : Char) : Bool := c == '/' || c == '?' || c == '#' || c == ':'

def parseHost (u : String) : Option String :=
  let rest : Option String :=
    if strStartsWith u "https://" then some (dropChars u 8)
    else if strStartsWith u "http://" then some (dropChars u 7)
    else none
  match rest with
  | none => none
  | some r =>
    let h := takeWhileChars (fun c => !hostTerminator c) r
    if h = "" then none else some h

/-- WHATWG relative-URL resolution `new URL(path, base).toString()`,
restricted to the shape the scraper uses: an origin-only `base`
(the instance base URL, no trailing slash) and a root-relative `path`. -/
def resolveUrl (base path : String) : String := base ++ path

/-! ## `encodeURIComponent`

Model of the ECMAScript builtin: unreserved characters
(`A–Z a–z 0–9 - _ . ! ~ * ' ( )`) are kept, every other character is
percent-encoded byte-wise from its UTF-8 encoding. -/

def hexDigit (n : Nat) : Char :=
  if n < 10 then Char.ofNat (48 + n) else Char.ofNat (55 + n)

def byteHex (b : Nat) : List Char := ['%', hexDigit (b / 16), hexDigit (b % 16)]

def utf8Bytes (n : Nat) : List Nat :=
  if n < 0x80 then [n]
  else if n < 0x800 then [0xC0 + n / 64, 0x80 + n % 64]
  else if n < 0x10000 then [0xE0 + n / 4096, 0x80 + n / 64 % 64, 0x80 + n % 64]
  else [0xF0 + n / 262144, 0x80 + n / 4096 % 64, 0x80 + n / 64 % 64, 0x80 + n % 64]

def uriUnreserved (c : Char) : Bool :=
  (c ≥ 'A' && c ≤ 'Z') || (c ≥ 'a' && c ≤ 'z') || (c ≥ '0' && c ≤ '9') ||
  c == '-' || c == '_' || c == '.' || c == '!' || c == '~' || c == '*' ||
  c == Char.ofNat 39 || c == '(' || c == ')'

def encodeURIComponent (s : String) : String :=
  ⟨s.data.flatMap (fun c =>
    if uriUnreserved c then [c] else (utf8Bytes c.toNat).flatMap byteHex)⟩

/-! ## Data model -/

/-- One raw item of a backend's structured JSON `results` array
(loosely typed in the source; fields may be absent). -/
structure RawItem where
  url : Option String := none
  title : Option String := none
  content : Option String := none
  snippet : Option String := none
  img_src : Option String := none
  thumbnail : Option String := none
  template : Option String := none
  category : Option String := none
  engine : Option String := none
  iframe_src : Option String := none
  score : Option Nat := none
deriving DecidableEq, Repr

/-- `metadata` of a public `SearchResult` (server.ts:273-277). -/
structure Metadata where
  domain : String
  engine : Option String := none
  score : Option Nat := none
deriving DecidableEq, Repr

/-- Public output unit produced by the search endpoint (server.ts:266-278,
336-344, 373-381, 408-416). -/
structure SearchResult where
  type : String
  title : String
  url : String
  snippet : String
  thumbnail : Option String
  favicon : String
  metadata : Metadata
deriving DecidableEq, Repr

/-- Response body of a successful `/api/search` call (server.ts:432-442).
The floating-point `aggregations.time` field is omitted from the model. -/
structure ResponseData where
  query : String
  category : String
  results : List SearchResult
  count : Nat
  engines : List String
  instanceUsed : Option String
deriving DecidableEq, Repr

/-- Per-instance health record (server.ts:71). -/
structure HealthRec where
  failures : Nat
  lastFailure : Nat
deriving DecidableEq, Repr

/-- `instanceHealth : Map<string, {failures, lastFailure}>` as an
association list (first match wins on lookup). -/
abbrev HealthMap := List (String × HealthRec)

/-- One entry of the search cache (server.ts:70). -/
structure CacheEntry where
  data : ResponseData
  timestamp : Nat
deriving DecidableEq, Repr

/-- `searchCache : Map<string, {data, timestamp}>` as an association list. -/
abbrev Cache := List (String × CacheEntry)

/-! ## Map operations (JS `Map.get` / `Map.set` / `Map.delete`) -/

def lookupH (m : HealthMap) (k : String) : Option HealthRec :=
  match m with
  | [] => none
  | (k', v) :: rest => if k' = k then some v else lookupH rest k

def eraseH (m : HealthMap) (k : String) : HealthMap :=
  m.filter (fun p => p.1 ≠ k)

def insertH (m : HealthMap) (k : String) (v : HealthRec) : HealthMap :=
  match m with
  | [] => [(k, v)]
  | (k', v') :: rest => if k' = k then (k, v) :: rest else (k', v') :: insertH rest k v

def lookupC (c : Cache) (k : String) : Option CacheEntry :=
  match c with
  | [] => none
  | (k', v) :: rest => if k' = k then some v else lookupC rest k

def cacheSet (c : Cache) (k : String) (v : CacheEntry) : Cache :=
  match c with
  | [] => [(k, v)]
  | (k', v') :: rest => if k' = k then (k, v) :: rest else (k', v') :: cacheSet rest k v

/-! ## Tunable constants (server.ts:72-74, 215-216) -/

def CACHE_TTL : Nat := 1000 * 60 * 10
def FAILURE_THRESHOLD : Nat := 3
def COOLDOWN_PERIOD : Nat := 1000 * 60 * 5
def batchSize : Nat := 8
def maxTotalInstances : Nat := 40

/-! ## Health tracker (server.ts:197-206, 230-235) -/

/-- The eligibility predicate of the `healthyInstances` filter callback
(server.ts:197-206), together with its side effect on the health map
(the record is deleted when eligibility holds via cooldown expiry). -/
def isEligible (m : HealthMap) (inst : String) (now : Nat) : Bool × HealthMap :=
  match lookupH m inst with
  | none => (true, m)
  | some h =>
    if h.failures < FAILURE_THRESHOLD then (true, m)
    else if now - h.lastFailure > COOLDOWN_PERIOD then (true, eraseH m inst)
    else (false, m)

/-- Failure recording of the per-task `.catch` handler (server.ts:232-233):
`instanceHealth.get(inst) || {failures: 0, lastFailure: 0}` then
`set(inst, {failures+1, lastFailure: now})`. -/
def recordFailure (m : HealthMap) (inst : String) (now : Nat) : HealthMap :=
  let h := (lookupH m inst).getD ⟨0, 0⟩
  insertH m inst ⟨h.failures + 1, now⟩

/-- `SEARXNG_INSTANCES.filter(...)` (server.ts:197-206); the filter callback
mutates the health map, so the map is threaded through. -/
def filterHealthy (now : Nat) (m : HealthMap) : List String → List String × HealthMap
  | [] => ([], m)
  | i :: rest =>
    let (b, m') := isEligible m i now
    let (l, m'') := filterHealthy now m' rest
    (if b then i :: l else l, m'')

/-! ## Result cache (server.ts:188-192, 444) -/

/-- Cache lookup as performed at server.ts:189-192: an entry is returned
only when `now - timestamp < CACHE_TTL` (strictly). -/
def cacheGet (c : Cache) (k : String) (now : Nat) : Option ResponseData :=
  match lookupC c k with
  | none => none
  | some e => if now - e.timestamp < CACHE_TTL then some e.data else none

/-- `const cacheKey = query + ":" + category + ":" + safebased`
(server.ts:188). -/
def requestCacheKey (query category : String) (safebased : Bool) : String :=
  query ++ ":" ++ category ++ ":" ++ (if safebased then "true" else "false")

/-! ## Instance registry (server.ts:5-67): `Array.from(new Set([...]))`,
i.e. first-occurrence deduplication of the literal list. -/

def dedupGo (seen : List String) : List String → List String
  | [] => []
  | x :: xs => if seen.contains x then dedupGo seen xs else x :: dedupGo (seen ++ [x]) xs

def dedupFirst (l : List String) : List String := dedupGo [] l

def SEARXNG_INSTANCES_RAW : List String :=
  ["https://searx.be", "https://searxng.site", "https://priv.au",
   "https://searx.work", "https://search.inetol.net", "https://opnxng.com",
   "https://searx.tiekoetter.com", "https://search.rhscz.eu",
   "https://searx.xyz", "https://searx.space", "https://searx.info",
   "https://searx.mx", "https://searx.divided-by-zero.eu",
   "https://searx.stuehmer.dk", "https://search.bus-hit.me",
   "https://searx.fyi", "https://searx.sethforprivacy.com",
   "https://searx.tuxcloud.net", "https://searx.gnous.eu",
   "https://searx.ctis.me", "https://searx.dresden.network",
   "https://searx.perennialte.ch", "https://searx.rofl.wtf",
   "https://searx.daetalytica.io", "https://searx.oakley.xyz",
   "https://searx.org", "https://search.ononoki.org", "https://searx.prvcy.eu",
   "https://searx.mha.fi", "https://searx.namei.net.au", "https://searx.ninja",
   "https://searx.ru", "https://searx.haxtrax.com", "https://searx.lre.io",
   "https://searx.be", "https://searx.neocities.org",
   "https://search.disroot.org", "https://searx.garudalinux.org",
   "https://searx.tuxcloud.net", "https://searx.web-on-fire.eu",
   "https://searx.nakost.it", "https://searx.slipfox.xyz", "https://searx.ch",
   "https://searx.me", "https://searx.pw", "https://searx.la",
   "https://searx.eu", "https://searx.net", "https://searx.bar",
   "https://searx.one", "https://searx.run", "https://searx.top",
   "https://searx.win", "https://searx.fun", "https://searx.cool",
   "https://searx.live", "https://searx.site", "https://searx.xyz",
   "https://searx.space", "https://searx.info", "https://searx.mx"]

def SEARXNG_INSTANCES : List String := dedupFirst SEARXNG_INSTANCES_RAW

/-! ## Outbound fetch model -/

/-- Outcome of one structured (`format=json`) fetch, as the code
distinguishes them: rejection (network error / timeout / abort), non-OK
response, OK response whose body fails `response.json()`, or OK JSON whose
`results` field is either absent/not-an-array (`none`) or an array. -/
inductive FetchOutcome where
  | fail
  | httpNotOk
  | okNonJson
  | okJson (results : Option (List RawItem))
deriving DecidableEq, Repr

/-- One card of the scraped HTML results page: the sub-elements the
selector pass of server.ts:311-323 extracts from one matched container. -/
structure ScrapeCard where
  hasLink : Bool
  linkText : String := ""
  altTitle : String := ""
  href : Option String := none
  snippetText : String := ""
  imgSrc : Option String := none
  imgDataSrc : Option String := none
  classImages : Bool := false
  classVideos : Bool := false
deriving DecidableEq, Repr

/-- Tag distinguishing the two kinds of outbound instance call: the
structured JSON fetch (server.ts:96, 361, 399; `Accept: application/json`)
and the HTML-scrape fetch (server.ts:297; `Accept: text/html`). -/
inductive FetchTag where
  | jsonFetch (url : String)
  | htmlFetch (url : String)
deriving DecidableEq, Repr

def FetchTag.isHtml : FetchTag → Bool
  | .jsonFetch _ => false
  | .htmlFetch _ => true

def FetchTag.url : FetchTag → String
  | .jsonFetch u => u
  | .htmlFetch u => u

abbrev FetchLog := List FetchTag

/-- The request environment: outcomes of outbound calls keyed by URL, the
shuffle (`.sort(() => Math.random() - 0.5)`, server.ts:208 — modelled as an
arbitrary reordering chosen by the environment, which also fixes the
settlement order raced by `Promise.any`), and the clock. -/
structure Env where
  fetchJson : String → FetchOutcome
  fetchHtml : String → Option (List ScrapeCard)
  shuffle : List String → List String
  now : Nat

/-! ## Structured fetch path (server.ts:76-115) -/

def safeParam (safebased : Bool) : String :=
  if safebased then "&safesearch=1" else "&safesearch=0"

/-- `categoriesToTry` (server.ts:77-81). -/
def categoriesToTry (category : String) : List String :=
  if category = "images" then ["images", "it"]
  else if category = "videos" then ["videos", "video"]
  else [if category = "general" then "" else category]

/-- `engineParam` (server.ts:86-91); depends on the requested category, not
on the category name currently tried. -/
def engineParamFor (category : String) : String :=
  if category = "images" then
    "&engines=google images,bing images,duckduckgo images,qwant images"
  else if category = "videos" then
    "&engines=youtube,vimeo,dailymotion,google videos,bing videos"
  else ""

/-- `searchUrl` (server.ts:85, 93). -/
def buildSearchUrl (inst query category catName : String) (safebased : Bool) :
    String :=
  inst ++ "/search?q=" ++ encodeURIComponent query ++ "&format=json" ++
    (if catName = "" then "" else "&categories=" ++ catName) ++
    engineParamFor category ++ safeParam safebased

/-- The category loop of `fetchFromInstance` (server.ts:84-113).  Returns
the parsed `results` array of the first attempt that is OK, JSON, and has a
non-empty `results` array, together with the log of fetches issued.  When
`aborted` (the batch's `AbortSignal` has fired) every fetch rejects, so the
loop always falls through. -/
def tryCategories (env : Env) (inst query category : String) (safebased aborted : Bool) :
    List String → Option (List RawItem) × FetchLog
  | [] => (none, [])
  | catName :: rest =>
    let url := buildSearchUrl inst query category catName safebased
    let tag := FetchTag.jsonFetch url
    let outcome := if aborted then FetchOutcome.fail else env.fetchJson url
    match outcome with
    | .okJson (some rs) =>
      if rs.length > 0 then (some rs, [tag])
      else
        let (r, lg) := tryCategories env inst query category safebased aborted rest
        (r, tag :: lg)
    | _ =>
      let (r, lg) := tryCategories env inst query category safebased aborted rest
      (r, tag :: lg)

/-- `fetchFromInstance` (server.ts:76-115): `none` models the terminal
`throw new Error("No results from instance")`. -/
def fetchFromInstance (env : Env) (inst query category : String)
    (safebased aborted : Bool) : Option (List RawItem) × FetchLog :=
  tryCategories env inst query category safebased aborted
    (categoriesToTry category)

/-- One element of `batchPromises` (server.ts:224-235): the per-instance
task `fetchFromInstance(...).catch(err => {record failure; rethrow})`,
together with its effect on the health map once it settles.  Any failure —
including the abort-induced failure of a task cancelled after a batch
winner was selected — runs the `.catch` handler and increments the
instance's failure counter. -/
def batchTask (env : Env) (h : HealthMap) (inst query category : String)
    (safebased aborted : Bool) (now : Nat) :
    Option (List RawItem × String) × HealthMap × FetchLog :=
  let (res, lg) := fetchFromInstance env inst query category safebased aborted
  match res with
  | some data => (some (data, inst), h, lg)
  | none => (none, recordFailure h inst now, lg)

/-- The settlement of the tasks cancelled by `controller.abort()` after a
batch winner was selected (server.ts:241): each aborted sibling fails and
its `.catch` handler records a failure. -/
def abortTasks (env : Env) (h : HealthMap) (query category : String)
    (safebased : Bool) : List String → HealthMap × FetchLog
  | [] => (h, [])
  | inst :: rest =>
    let (_, h', lg) := batchTask env h inst query category safebased true env.now
    let (h'', lg') := abortTasks env h' query category safebased rest
    (h'', lg ++ lg')

/-- `await Promise.any(batchPromises)` (server.ts:239) with the subsequent
`controller.abort()`: the first task (in settlement order, which the
environment folded into the batch order) to produce data wins; every other
task of the batch settles as a failure and is health-penalized. -/
def raceBatch (env : Env) (h : HealthMap) (query category : String)
    (safebased : Bool) : List String → Option (List RawItem × String) × HealthMap × FetchLog
  | [] => (none, h, [])
  | inst :: rest =>
    match batchTask env h inst query category safebased false env.now with
    | (some w, h', lg) =>
      let (h'', lg') := abortTasks env h' query category safebased rest
      (some w, h'', lg ++ lg')
    | (none, h', lg) =>
      let (r, h'', lg') := raceBatch env h' query category safebased rest
      (r, h'', lg ++ lg')

/-! ## Category filter (server.ts:247-258) -/

/-- Filter for `category === 'images'` (server.ts:249-251); every field
access is safe (optional chaining), so it is total. -/
def imagesFilter (r : RawItem) : Bool :=
  truthy r.img_src || truthy r.thumbnail || r.template == some "image" ||
    r.category == some "images" || optIncludes r.content "img" ||
    optIncludes r.engine "images"

/-- Filter for `category === 'videos'` (server.ts:253-256).  The disjuncts
`r.url.includes(...)` dereference `r.url` without a guard: when the first
three (short-circuiting) disjuncts are false and `url` is absent, the
callback throws a `TypeError`, modelled as `Except.error`. -/
def videosFilter (r : RawItem) : Except Unit Bool :=
  if r.template == some "video" || r.category == some "videos" ||
      r.category == some "video" then .ok true
  else
    match r.url with
    | none => .error ()
    | some u =>
      .ok (strIncludes u "youtube.com" || strIncludes u "vimeo.com" ||
        strIncludes u "dailymotion.com" || strIncludes u "youtu.be" ||
        truthy r.iframe_src || optIncludes r.content "video")

/-- `Array.prototype.filter` with a predicate that may throw (the first
thrown error aborts the whole pass). -/
def exceptFilter (p : α → Except Unit Bool) : List α → Except Unit (List α)
  | [] => .ok []
  | x :: xs =>
    match p x with
    | .error e => .error e
    | .ok b =>
      match exceptFilter p xs with
      | .error e => .error e
      | .ok rest => .ok (if b then x :: rest else rest)

/-- `Array.prototype.map` with a function that may throw. -/
def exceptMapM (f : α → Except Unit β) : List α → Except Unit (List β)
  | [] => .ok []
  | x :: xs =>
    match f x with
    | .error e => .error e
    | .ok y =>
      match exceptMapM f xs with
      | .error e => .error e
      | .ok ys => .ok (y :: ys)

/-- The `filtered` computation (server.ts:247-258): `data.results` is
filtered only for `images` and `videos`; any other category keeps the raw
array unchanged. -/
def categoryFilter (category : String) (rs : List RawItem) :
    Except Unit (List RawItem) :=
  if category = "images" then .ok (rs.filter imagesFilter)
  else if category = "videos" then exceptFilter videosFilter rs
  else .ok rs

/-! ## Winner normalization (server.ts:261-279) -/

def faviconOf (domain : String) : String :=
  "https://www.google.com/s2/favicons?domain=" ++ domain ++ "&sz=32"

/-- The mapping of one raw winner item into a `SearchResult`
(server.ts:261-279); the `new URL` call is wrapped in `try/catch`, leaving
`domain = "unknown"` on failure. -/
def mapResult (category : String) (r : RawItem) : SearchResult :=
  let domain := (parseHost (jsOrS r.url "http://localhost")).getD "unknown"
  { type := jsOrS r.category category
    title := jsOrS r.title "No Title"
    url := jsOrS r.url "#"
    snippet := jsOrStr (jsOrS r.content "") (jsOrS r.snippet "")
    thumbnail := jsOrNull (jsOrO r.img_src r.thumbnail)
    favicon := faviconOf domain
    metadata := { domain := domain, engine := r.engine, score := r.score } }

/-- `if (r.engine) enginesUsed.add(r.engine)` with JS `Set` insertion-order
semantics (server.ts:262). -/
def addEngine (l : List String) (e : String) : List String :=
  if l.contains e then l else l ++ [e]

/-- `filtered.map(...)` together with the `enginesUsed` accumulation
(server.ts:261-279). -/
def mapResultsGo (category : String) :
    List RawItem → List SearchResult → List String →
    List SearchResult × List String
  | [], acc, eng => (acc, eng)
  | r :: rest, acc, eng =>
    mapResultsGo category rest (acc ++ [mapResult category r])
      (if truthy r.engine then addEngine eng ((r.engine).getD "") else eng)

def mapResults (category : String) (rs : List RawItem) :
    List SearchResult × List String :=
  mapResultsGo category rs [] []

/-! ## Batch loop (server.ts:214-288) -/

/-- The batch slices `shuffled.slice(i, i + batchSize)` for
`i = 0, batchSize, ...` visited by the loop at server.ts:218
(structural accumulator formulation). -/
def chunksGo (n : Nat) : List α → List α → List (List α)
  | [], acc => if acc.isEmpty then [] else [acc]
  | x :: xs, acc =>
    let acc' := acc ++ [x]
    if acc'.length = n then acc' :: chunksGo n xs [] else chunksGo n xs acc'

def chunksOf (n : Nat) (l : List α) : List (List α) := chunksGo n l []

/-- Accumulated outcome of the batch loop. -/
structure BatchOut where
  results : List SearchResult
  engines : List String
  instUsed : Option String
  health : HealthMap
  log : FetchLog

/-- The `for` loop over batches (server.ts:218-288).  A winner is accepted
when its category-filtered results are non-empty; an exception thrown while
filtering, or an empty filtered array, sends the loop to the next batch
(`instanceUsed` was already assigned at server.ts:245). -/
def runBatches (env : Env) (query category : String) (safebased : Bool) :
    List (List String) → HealthMap → Option String → BatchOut
  | [], h, iu => ⟨[], [], iu, h, []⟩
  | b :: rest, h, iu =>
    match raceBatch env h query category safebased b with
    | (none, h', lg) =>
      let o := runBatches env query category safebased rest h' iu
      ⟨o.results, o.engines, o.instUsed, o.health, lg ++ o.log⟩
    | (some (data, inst), h', lg) =>
      match categoryFilter category data with
      | .error _ =>
        let o := runBatches env query category safebased rest h' (some inst)
        ⟨o.results, o.engines, o.instUsed, o.health, lg ++ o.log⟩
      | .ok filtered =>
        if filtered.isEmpty then
          let o := runBatches env query category safebased rest h' (some inst)
          ⟨o.results, o.engines, o.instUsed, o.health, lg ++ o.log⟩
        else
          let (res, engs) := mapResults category filtered
          ⟨res, engs, some inst, h', lg⟩

/-- The batched structured path: at most `maxTotalInstances` instances, in
slices of `batchSize` (server.ts:215-218). -/
def batchPhase (env : Env) (h : HealthMap) (shuffled : List String)
    (query category : String) (safebased : Bool) : BatchOut :=
  runBatches env query category safebased
    (chunksOf batchSize (shuffled.take maxTotalInstances)) h none

/-! ## HTML-scrape fallback (server.ts:290-353) -/

/-- The scrape request URL (server.ts:295-297): no `format=json`, no
engine parameter; `general` sends no `categories` parameter. -/
def scrapeSearchUrl (inst query category : String) (safebased : Bool) : String :=
  inst ++ "/search?q=" ++ encodeURIComponent query ++
    (if category = "general" then "" else "&categories=" ++ category) ++
    safeParam safebased

/-- `url` of one matched card, after root-relative resolution against the
scraping instance (server.ts:318-319). -/
def cardUrl (scraperInstance : String) (c : ScrapeCard) : String :=
  let url0 := jsOrS c.href "#"
  if strStartsWith url0 "/" then resolveUrl scraperInstance url0 else url0

/-- `thumbnail` of one matched card: direct source attribute, else
lazy-load attribute, with root-relative resolution (server.ts:322-323). -/
def cardThumb (scraperInstance : String) (c : ScrapeCard) : Option String :=
  match jsOrO c.imgSrc c.imgDataSrc with
  | some t => if strStartsWith t "/" then some (resolveUrl scraperInstance t) else some t
  | none => none

/-- `type` of one matched card (server.ts:325-327). -/
def cardType (scraperInstance category : String) (c : ScrapeCard) : String :=
  let type1 := if c.classImages || truthy (cardThumb scraperInstance c) then "images"
    else category
  if c.classVideos || strIncludes (cardUrl scraperInstance c) "youtube.com" then "videos"
  else type1

/-- Processing of one matched result card (server.ts:312-345), excluding
the dedupe-and-push step. `none` models the early `return`s (no link
element, or the per-category guards at server.ts:329-330). -/
def processCard (scraperInstance category : String) (c : ScrapeCard) :
    Option SearchResult :=
  if !c.hasLink then none
  else
    let title := jsOrStr (trimChars c.linkText) (trimChars c.altTitle)
    let url := cardUrl scraperInstance c
    let thumb := cardThumb scraperInstance c
    if category = "images" && !truthy thumb then none
    else if category = "videos" && !strIncludes url "youtube.com" then none
    else
      let domain := (parseHost url).getD "unknown"
      some { type := cardType scraperInstance category c
             title := jsOrStr title "No Title"
             url := url
             snippet := jsOrStr (trimChars c.snippetText) ""
             thumbnail := thumb
             favicon := faviconOf domain
             metadata := { domain := domain } }

/-- The `.each` pass over matched cards (server.ts:312-345), with the
de-duplication by resolved URL (server.ts:334). -/
def processCardsGo (scraperInstance category : String) :
    List ScrapeCard → List SearchResult → List SearchResult
  | [], acc => acc
  | c :: rest, acc =>
    match processCard scraperInstance category c with
    | none => processCardsGo scraperInstance category rest acc
    | some r =>
      if acc.any (fun r' => r'.url = r.url) then
        processCardsGo scraperInstance category rest acc
      else processCardsGo scraperInstance category rest (acc ++ [r])

def processCards (scraperInstance category : String) (cards : List ScrapeCard) :
    List SearchResult :=
  processCardsGo scraperInstance category cards []

/-- The HTML-scrape fallback (server.ts:291-353): it targets only
`shuffled[0]`.  Returns the scraped results (used only when non-empty),
the updated `instanceUsed` (assigned whenever the HTML response was OK,
server.ts:309), and the fetch log. -/
def scrapePhase (env : Env) (shuffled : List String) (query category : String)
    (safebased : Bool) (instUsed : Option String) :
    List SearchResult × Option String × FetchLog :=
  match shuffled.head? with
  | none => ([], instUsed, [])
  | some s =>
    let url := scrapeSearchUrl s query category safebased
    match env.fetchHtml url with
    | none => ([], instUsed, [.htmlFetch url])
    | some cards => (processCards s category cards, some s, [.htmlFetch url])

/-! ## Broadened-extraction fallbacks (server.ts:355-426) -/

/-- The fallback request URL (server.ts:360, 398): `format=json`, no
`categories`, no engines. -/
def fallbackUrl (inst query : String) (safebased : Bool) : String :=
  inst ++ "/search?q=" ++ encodeURIComponent query ++ "&format=json" ++
    safeParam safebased

/-- Filter of the broadened videos fallback (server.ts:369-372); `r.url`
is dereferenced without a guard after three short-circuiting disjuncts. -/
def videosFallbackFilter (r : RawItem) : Except Unit Bool :=
  if r.template == some "video" || r.category == some "videos" ||
      r.category == some "video" then .ok true
  else
    match r.url with
    | none => .error ()
    | some u =>
      .ok (strIncludes u "youtube.com" || strIncludes u "youtu.be" ||
        strIncludes u "vimeo.com")

/-- Mapping of the broadened videos fallback (server.ts:373-381); the
`new URL(r.url || "http://localhost")` calls are not wrapped in a local
`try/catch`, so a parse failure throws (skipping the whole instance). -/
def videosFallbackMap (r : RawItem) : Except Unit SearchResult :=
  match parseHost (jsOrS r.url "http://localhost") with
  | none => .error ()
  | some host =>
    .ok { type := "videos"
          title := jsOrS r.title "No Title"
          url := jsOrS r.url "#"
          snippet := jsOrS r.content ""
          thumbnail := jsOrO r.img_src r.thumbnail
          favicon := faviconOf host
          metadata := { domain := host, engine := r.engine } }

/-- Filter of the broadened images fallback (server.ts:407). -/
def imagesFallbackFilter (r : RawItem) : Bool :=
  truthy r.img_src || truthy r.thumbnail

/-- Mapping of the broadened images fallback (server.ts:408-416). -/
def imagesFallbackMap (r : RawItem) : Except Unit SearchResult :=
  match parseHost (jsOrS r.url "http://localhost") with
  | none => .error ()
  | some host =>
    .ok { type := "images"
          title := jsOrS r.title "No Title"
          url := jsOrS r.url "#"
          snippet := jsOrS r.content ""
          thumbnail := jsOrO r.img_src r.thumbnail
          favicon := faviconOf host
          metadata := { domain := host, engine := r.engine } }

/-- Extraction step shared by both broadened fallbacks: filter then map,
either of which may throw. -/
def fallbackExtract (flt : RawItem → Except Unit Bool)
    (mp : RawItem → Except Unit SearchResult) (rs : List RawItem) :
    Except Unit (List SearchResult) :=
  match exceptFilter flt rs with
  | .error e => .error e
  | .ok f => exceptMapM mp f

/-- One broadened-fallback loop (server.ts:357-391 for videos,
server.ts:395-426 for images): visit the given instances in order and stop
at the first whose OK-JSON response has a `results` field and yields a
non-empty extraction; every error (including a thrown filter/map) skips to
the next instance. -/
def broadenedFallback (env : Env) (query : String) (safebased : Bool)
    (flt : RawItem → Except Unit Bool) (mp : RawItem → Except Unit SearchResult) :
    List String → Option (List SearchResult × String) × FetchLog
  | [] => (none, [])
  | inst :: rest =>
    let url := fallbackUrl inst query safebased
    let tag := FetchTag.jsonFetch url
    let next :=
      let (r, lg) := broadenedFallback env query safebased flt mp rest
      (r, tag :: lg)
    match env.fetchJson url with
    | .okJson (some rs) =>
      match fallbackExtract flt mp rs with
      | .ok extracted =>
        if extracted.isEmpty then next else (some (extracted, inst), [tag])
      | .error _ => next
    | _ => next

/-! ## The aggregation pipeline and the `/api/search` handler
(server.ts:178-446) -/

/-! The uncached part of the handler (server.ts:194-442) is decomposed
into named stages (the mutable locals `results`, `instanceUsed` of the
source become the stage outputs): health filter and shuffle, batch loop,
HTML-scrape fallback, the two broadened fallbacks, response assembly. -/

/-- `shuffled` (server.ts:208). -/
def fsShuffled (env : Env) (health : HealthMap) : List String :=
  env.shuffle (filterHealthy env.now health SEARXNG_INSTANCES).1

/-- The batch loop outcome, starting from the health map left by the
eligibility filter. -/
def fsBatch (env : Env) (health : HealthMap) (query category : String)
    (safebased : Bool) : BatchOut :=
  batchPhase env (filterHealthy env.now health SEARXNG_INSTANCES).2
    (fsShuffled env health) query category safebased

/-- `results`/`instanceUsed` after the HTML-scrape fallback
(server.ts:290-353), which runs only when the batch loop produced
nothing. -/
def fsScrape (env : Env) (health : HealthMap) (query category : String)
    (safebased : Bool) : List SearchResult × Option String × FetchLog :=
  if (fsBatch env health query category safebased).results.isEmpty then
    scrapePhase env (fsShuffled env health) query category safebased
      (fsBatch env health query category safebased).instUsed
  else ((fsBatch env health query category safebased).results,
    (fsBatch env health query category safebased).instUsed, [])

/-- The broadened videos fallback attempt (server.ts:355-391). -/
def fsVideos (env : Env) (health : HealthMap) (query category : String)
    (safebased : Bool) : Option (List SearchResult × String) × FetchLog :=
  if (fsScrape env health query category safebased).1.isEmpty &&
      category = "videos" then
    broadenedFallback env query safebased videosFallbackFilter
      videosFallbackMap ((fsShuffled env health).take 8)
  else (none, [])

/-- `results`/`instanceUsed` after the videos fallback. -/
def fsR2 (env : Env) (health : HealthMap) (query category : String)
    (safebased : Bool) : List SearchResult × Option String :=
  match (fsVideos env health query category safebased).1 with
  | some (ex, inst) => (ex, some inst)
  | none => ((fsScrape env health query category safebased).1,
      (fsScrape env health query category safebased).2.1)

/-- The broadened images fallback attempt (server.ts:393-426). -/
def fsImages (env : Env) (health : HealthMap) (query category : String)
    (safebased : Bool) : Option (List SearchResult × String) × FetchLog :=
  if (fsR2 env health query category safebased).1.isEmpty &&
      category = "images" then
    broadenedFallback env query safebased
      (fun r => .ok (imagesFallbackFilter r)) imagesFallbackMap
      ((fsShuffled env health).take 8)
  else (none, [])

/-- `results`/`instanceUsed` after all fallbacks. -/
def fsR3 (env : Env) (health : HealthMap) (query category : String)
    (safebased : Bool) : List SearchResult × Option String :=
  match (fsImages env health query category safebased).1 with
  | some (ex, inst) => (ex, some inst)
  | none => fsR2 env health query category safebased

/-- All outbound calls, in order. -/
def fsLog (env : Env) (health : HealthMap) (query category : String)
    (safebased : Bool) : FetchLog :=
  (fsBatch env health query category safebased).log ++
    (fsScrape env health query category safebased).2.2 ++
    (fsVideos env health query category safebased).2 ++
    (fsImages env health query category safebased).2

/-- The uncached part of the handler (server.ts:194-442).  `none` models
total exhaustion (the 404 path); `aggregations.engines` comes from the
batch loop alone. -/
def freshSearch (env : Env) (health : HealthMap) (query category : String)
    (safebased : Bool) : Option ResponseData × HealthMap × FetchLog :=
  if (fsR3 env health query category safebased).1.isEmpty then
    (none, (fsBatch env health query category safebased).health,
      fsLog env health query category safebased)
  else
    (some { query := query, category := category,
            results := (fsR3 env health query category safebased).1,
            count := (fsR3 env health query category safebased).1.length,
            engines := (fsBatch env health query category safebased).engines,
            instanceUsed := (fsR3 env health query category safebased).2 },
      (fsBatch env health query category safebased).health,
      fsLog env health query category safebased)

/-- The three responses the `/api/search` handler can produce. -/
inductive ApiResponse where
  | badRequest
  | notFound
  | ok (data : ResponseData)
deriving DecidableEq, Repr

def ApiResponse.status : ApiResponse → Nat
  | .badRequest => 400
  | .notFound => 404
  | .ok _ => 200

/-- The `error` field of the JSON body, for the two error responses. -/
def ApiResponse.errorMsg : ApiResponse → Option String
  | .badRequest => some "Query is required"
  | .notFound => some "No results found. Please try a different query."
  | .ok _ => none

/-- The process-wide mutable state read and written by the handler. -/
structure ServerState where
  cache : Cache
  health : HealthMap
deriving Repr

/-- The `/api/search` handler (server.ts:178-446).  `q`, `cat`, `safe` are
the raw query parameters (`none` = absent).  Returns the response, the
updated process state, and the log of outbound instance calls. -/
def searchHandler (env : Env) (st : ServerState)
    (q cat safe : Option String) : ApiResponse × ServerState × FetchLog :=
  match q with
  | none => (.badRequest, st, [])
  | some query =>
    if query = "" then (.badRequest, st, [])
    else
      let category := jsOrS cat "general"
      let safebased := safe == some "true"
      let key := requestCacheKey query category safebased
      match cacheGet st.cache key env.now with
      | some d => (.ok d, st, [])
      | none =>
        match freshSearch env st.health query category safebased with
        | (some d, h', lg) =>
          (.ok d, ⟨cacheSet st.cache key ⟨d, env.now⟩, h'⟩, lg)
        | (none, h', lg) => (.notFound, ⟨st.cache, h'⟩, lg)

/-! ## Concrete demonstration inputs

Small closed environments used to evaluate the model on explicit inputs. -/

def emptyState : ServerState := ⟨[], []⟩

/-- A plain text result item (snippet, no image/video markers). -/
def demoTxtItem : RawItem :=
  { url := some "https://txt.example/t", title := some "Plain",
    content := some "plain text snippet" }

/-- An exclusively image-marked item without any textual snippet. -/
def demoImgItem : RawItem :=
  { url := some "https://img.example/a", title := some "Img",
    img_src := some "https://img.example/a.png" }

/-- An exclusively video-marked item without any textual snippet. -/
def demoVidItem : RawItem :=
  { url := some "https://vid.example/v", title := some "Vid",
    template := some "video" }

/-- An item with no `url` field at all. -/
def demoNoUrlItem : RawItem := { title := some "NoUrl", content := some "text" }

/-- A video item carrying an `engine` field. -/
def demoYtItem : RawItem :=
  { url := some "https://youtube.com/watch", title := some "Y",
    content := some "vid", engine := some "youtube", template := some "video" }

/-- The structured URL the batch path requests from `inst` for query
`"cats"`, category `general`, safe off. -/
def demoGenUrl (inst : String) : String := buildSearchUrl inst "cats" "general" "" false

/-- Environment in which every outbound call fails; two instances. -/
def demoEnvFail : Env :=
  { fetchJson := fun _ => .fail
    fetchHtml := fun _ => none
    shuffle := fun _ => ["https://a.example", "https://b.example"]
    now := 5 }

/-- Environment with a single instance that answers the `general`
structured request for `"cats"` with one plain text item. -/
def demoEnvWin : Env :=
  { fetchJson := fun u =>
      if u = demoGenUrl "https://w.example" then .okJson (some [demoTxtItem])
      else .fail
    fetchHtml := fun _ => none
    shuffle := fun _ => ["https://w.example"]
    now := 1000 }

/-- `demoEnvWin` observed 100 ms later. -/
def demoEnvWinLater : Env :=
  { demoEnvWin with now := 1100 }

/-- Environment whose single instance answers the `general` structured
request with the mixed three-item set. -/
def demoEnvMixed : Env :=
  { fetchJson := fun u =>
      if u = demoGenUrl "https://w.example" then
        .okJson (some [demoImgItem, demoVidItem, demoTxtItem])
      else .fail
    fetchHtml := fun _ => none
    shuffle := fun _ => ["https://w.example"]
    now := 1000 }

/-- Environment whose single instance answers the `general` structured
request with one item lacking a `url`. -/
def demoEnvNoUrl : Env :=
  { fetchJson := fun u =>
      if u = demoGenUrl "https://w.example" then .okJson (some [demoNoUrlItem])
      else .fail
    fetchHtml := fun _ => none
    shuffle := fun _ => ["https://w.example"]
    now := 1000 }

/-- Environment in which the batched `videos` path and the scrape fail but
the broadened `general` fallback returns one video item (with an engine
field). -/
def demoEnvVideoFb : Env :=
  { fetchJson := fun u =>
      if u = fallbackUrl "https://f.example" "cats" false then
        .okJson (some [demoYtItem])
      else .fail
    fetchHtml := fun _ => none
    shuffle := fun _ => ["https://f.example"]
    now := 1000 }

/-- Projection of an `ok` response's body. -/
def okData : ApiResponse → Option ResponseData
  | .ok d => some d
  | _ => none

def emptyResponseData : ResponseData :=
  { query := "", category := "", results := [], count := 0, engines := [],
    instanceUsed := none }

/-- A concrete cached payload used for boundary demonstrations. -/
def demoCachedData : ResponseData :=
  { query := "cats", category := "general", results := [], count := 1,
    engines := [], instanceUsed := some "https://w.example" }

/-- First call against `demoEnvWin` on an empty state. -/
def demoFirstCall : ApiResponse × ServerState × FetchLog :=
  searchHandler demoEnvWin emptyState (some "cats") none none

def demoOkData : ResponseData := (okData demoFirstCall.1).getD emptyResponseData

def demoFirstState : ServerState := demoFirstCall.2.1

def demoFirstLog : FetchLog := demoFirstCall.2.2

/-- The fresh aggregation run of `demoEnvWin`. -/
def demoWinFresh : Option ResponseData × HealthMap × FetchLog :=
  freshSearch demoEnvWin [] "cats" "general" false

def demoWinData : ResponseData := demoWinFresh.1.getD emptyResponseData

def demoWinResult : SearchResult :=
  (demoWinData.results.head?).getD
    ⟨"", "", "", "", none, "", ⟨"", none, none⟩⟩

def demoWinHealth : HealthMap := demoWinFresh.2.1

def demoWinLog : FetchLog := demoWinFresh.2.2

/-- The fresh aggregation run of `demoEnvVideoFb` (broadened fallback
produces the results). -/
def demoFbFresh : Option ResponseData × HealthMap × FetchLog :=
  freshSearch demoEnvVideoFb [] "cats" "videos" false

def demoFbData : ResponseData := demoFbFresh.1.getD emptyResponseData

def demoFbHealth : HealthMap := demoFbFresh.2.1

def demoFbLog : FetchLog := demoFbFresh.2.2

/-- The per-item field invariant of C7: the favicon is the fixed function
of the metadata domain, and whenever the item's `url` field parses as an
http(s) URL, the metadata domain is exactly its host. -/
def GoodResult (r : SearchResult) : Prop :=
  r.favicon = faviconOf r.metadata.domain ∧
  ∀ host, parseHost r.url = some host → r.metadata.domain = host

/-! # Theorems -/

/-! ## Map lemmas -/

theorem lookupH_insertH_self (m : HealthMap) (k : String) (v : HealthRec) :
    lookupH (insertH m k v) k = some v := by
  induction m with
  | nil => simp [insertH, lookupH]
  | cons p rest ih =>
    obtain ⟨k', v'⟩ := p
    by_cases h : k' = k <;> simp [insertH, lookupH, h, ih]

theorem lookupH_recordFailure_self (m : HealthMap) (k : String) (now : Nat) :
    lookupH (recordFailure m k now) k =
      some ⟨((lookupH m k).getD ⟨0, 0⟩).failures + 1, now⟩ := by
  simp [recordFailure, lookupH_insertH_self]

theorem lookupC_cacheSet_self (c : Cache) (k : String) (v : CacheEntry) :
    lookupC (cacheSet c k v) k = some v := by
  induction c with
  | nil => simp [cacheSet, lookupC]
  | cons p rest ih =>
    obtain ⟨k', v'⟩ := p
    by_cases h : k' = k <;> simp [cacheSet, lookupC, h, ih]

theorem isEligible_fst_of_lookup (m : HealthMap) (inst : String) (now : Nat)
    (h : HealthRec) (hm : lookupH m inst = some h) :
    (isEligible m inst now).1 =
      (decide (h.failures < FAILURE_THRESHOLD) ||
        decide (COOLDOWN_PERIOD < now - h.lastFailure)) := by
  unfold isEligible
  rw [hm]
  by_cases h1 : h.failures < FAILURE_THRESHOLD
  · simp [h1]
  · by_cases h2 : COOLDOWN_PERIOD < now - h.lastFailure <;> simp [h1, h2]

/-! ## C3: health eligibility -/

/-- C3: an instance is eligible iff no health record exists, or its
`failures` is below `FAILURE_THRESHOLD`, or `now - lastFailure` exceeds
`COOLDOWN_PERIOD` (in which last case the record is deleted as a side
effect); consequently an instance failing `FAILURE_THRESHOLD` times from a
clean slate is ineligible while inside the cooldown window and eligible
again, without manual reset, once the cooldown has elapsed past its last
failure. -/
theorem health_eligibility_spec (m : HealthMap) (inst : String) (now : Nat) :
    ((isEligible m inst now).1 = true ↔
      lookupH m inst = none ∨
      ∃ h, lookupH m inst = some h ∧
        (h.failures < FAILURE_THRESHOLD ∨ COOLDOWN_PERIOD < now - h.lastFailure)) ∧
    (∀ h, lookupH m inst = some h → FAILURE_THRESHOLD ≤ h.failures →
      COOLDOWN_PERIOD < now - h.lastFailure →
      (isEligible m inst now).2 = eraseH m inst) ∧
    (∀ h, lookupH m inst = some h →
      (h.failures < FAILURE_THRESHOLD ∨ ¬ COOLDOWN_PERIOD < now - h.lastFailure) →
      (isEligible m inst now).2 = m) ∧
    (lookupH m inst = none → (isEligible m inst now).2 = m) ∧
    (∀ t1 t2 t3, lookupH m inst = none →
      ((now - t3 ≤ COOLDOWN_PERIOD →
        (isEligible (recordFailure (recordFailure (recordFailure m inst t1) inst t2)
          inst t3) inst now).1 = false) ∧
       (COOLDOWN_PERIOD < now - t3 →
        (isEligible (recordFailure (recordFailure (recordFailure m inst t1) inst t2)
          inst t3) inst now).1 = true))) := by
  refine ⟨?_, ?_, ?_, ?_, ?_⟩
  · unfold isEligible
    cases hm : lookupH m inst with
    | none => simp
    | some h =>
      by_cases h1 : h.failures < FAILURE_THRESHOLD
      · simp [h1]
      · by_cases h2 : now - h.lastFailure > COOLDOWN_PERIOD <;>
          simp [h1, h2]
  · intro h hm h1 h2
    unfold isEligible
    rw [hm]
    simp [Nat.not_lt.mpr h1, h2]
  · intro h hm hd
    unfold isEligible
    rw [hm]
    rcases hd with h1 | h2
    · simp [h1]
    · by_cases h1 : h.failures < FAILURE_THRESHOLD
      · simp [h1]
      · simp [h1, h2]
  · intro hm; unfold isEligible; rw [hm]
  · intro t1 t2 t3 hm
    have hl : lookupH (recordFailure (recordFailure (recordFailure m inst t1) inst t2)
        inst t3) inst = some ⟨3, t3⟩ := by
      rw [lookupH_recordFailure_self, lookupH_recordFailure_self,
        lookupH_recordFailure_self, hm]
      simp [Option.getD]
    constructor
    · intro hcool
      rw [isEligible_fst_of_lookup _ _ _ _ hl]
      simp only [COOLDOWN_PERIOD] at hcool
      simp [FAILURE_THRESHOLD, COOLDOWN_PERIOD]
      omega
    · intro hcool
      rw [isEligible_fst_of_lookup _ _ _ _ hl]
      simp only [COOLDOWN_PERIOD] at hcool
      simp [FAILURE_THRESHOLD, COOLDOWN_PERIOD]
      omega

/-- Witness for C3: three failures at times 1, 2, 3 make
`https://searx.be` ineligible at time 600 (inside the cooldown window)
and eligible again at time 300004 (cooldown elapsed). -/
theorem health_eligibility_spec_witness :
    (isEligible (recordFailure (recordFailure (recordFailure [] "https://searx.be" 1)
      "https://searx.be" 2) "https://searx.be" 3) "https://searx.be" 600).1 = false ∧
    (isEligible (recordFailure (recordFailure (recordFailure [] "https://searx.be" 1)
      "https://searx.be" 2) "https://searx.be" 3) "https://searx.be" 300004).1 = true := by
  constructor
  · exact ((health_eligibility_spec [] "https://searx.be" 600).2.2.2.2 1 2 3 rfl).1
      (by decide)
  · exact ((health_eligibility_spec [] "https://searx.be" 300004).2.2.2.2 1 2 3 rfl).2
      (by decide)

/-! ## Handler unfolding lemmas -/

theorem searchHandler_hit (env : Env) (st : ServerState) (query : String)
    (cat safe : Option String) (d : ResponseData) (hq : query ≠ "")
    (hh : cacheGet st.cache (requestCacheKey query (jsOrS cat "general")
      (safe == some "true")) env.now = some d) :
    searchHandler env st (some query) cat safe = (.ok d, st, []) := by
  simp [searchHandler, hq, hh]

theorem searchHandler_miss_some (env : Env) (st : ServerState) (query : String)
    (cat safe : Option String) (d : ResponseData) (h' : HealthMap) (lg : FetchLog)
    (hq : query ≠ "")
    (hm : cacheGet st.cache (requestCacheKey query (jsOrS cat "general")
      (safe == some "true")) env.now = none)
    (hf : freshSearch env st.health query (jsOrS cat "general")
      (safe == some "true") = (some d, h', lg)) :
    searchHandler env st (some query) cat safe =
      (.ok d, ⟨cacheSet st.cache (requestCacheKey query (jsOrS cat "general")
        (safe == some "true")) ⟨d, env.now⟩, h'⟩, lg) := by
  simp [searchHandler, hq, hm, hf]

theorem searchHandler_miss_none (env : Env) (st : ServerState) (query : String)
    (cat safe : Option String) (h' : HealthMap) (lg : FetchLog)
    (hq : query ≠ "")
    (hm : cacheGet st.cache (requestCacheKey query (jsOrS cat "general")
      (safe == some "true")) env.now = none)
    (hf : freshSearch env st.health query (jsOrS cat "general")
      (safe == some "true") = (none, h', lg)) :
    searchHandler env st (some query) cat safe = (.notFound, ⟨st.cache, h'⟩, lg) := by
  simp [searchHandler, hq, hm, hf]

/-! ## C4: cache TTL -/

/-- C4 counterexample: the claim as stated accepts an entry with
`now - storedAt ≤ TTL`; but at `now - storedAt = CACHE_TTL` exactly the
lookup misses (the code uses a strict `<`): the entry is stored, the
claimed condition holds, yet the lookup behaves as absent. -/
theorem cache_ttl_boundary_counterexample :
    lookupC [("cats:general:false", ⟨demoCachedData, 0⟩)] "cats:general:false" =
      some ⟨demoCachedData, 0⟩ ∧
    CACHE_TTL - 0 ≤ CACHE_TTL ∧
    cacheGet [("cats:general:false", ⟨demoCachedData, 0⟩)] "cats:general:false"
      CACHE_TTL = none :=
  ⟨rfl, by decide, rfl⟩

/-- C4 (amended): a lookup returns the stored payload iff a payload was
stored and `now - storedAt` is strictly below `CACHE_TTL`; and a second
identical `(query, category, safe)` request strictly inside the TTL window
after a fresh successful aggregation is answered from the cache with the
identical payload and no outbound instance calls. -/
theorem cache_ttl_spec (c : Cache) (k : String) (now : Nat) :
    (∀ d, cacheGet c k now = some d ↔
      ∃ e, lookupC c k = some e ∧ e.data = d ∧ now - e.timestamp < CACHE_TTL) ∧
    (∀ (env env' : Env) (st : ServerState) (query : String)
        (cat safe : Option String) (d : ResponseData) (st' : ServerState)
        (lg : FetchLog),
      lookupC st.cache (requestCacheKey query (jsOrS cat "general")
        (safe == some "true")) = none →
      searchHandler env st (some query) cat safe = (.ok d, st', lg) →
      env'.now - env.now < CACHE_TTL →
      (searchHandler env' st' (some query) cat safe).1 = .ok d ∧
      (searchHandler env' st' (some query) cat safe).2.2 = []) := by
  constructor
  · intro d
    unfold cacheGet
    cases h : lookupC c k with
    | none => simp
    | some e =>
      by_cases ht : now - e.timestamp < CACHE_TTL <;> simp [ht]
  · intro env env' st query cat safe d st' lg h1 h2 h3
    by_cases hq : query = ""
    · simp [searchHandler, hq] at h2
    have hmiss : cacheGet st.cache (requestCacheKey query (jsOrS cat "general")
        (safe == some "true")) env.now = none := by
      unfold cacheGet; rw [h1]
    rcases hf : freshSearch env st.health query (jsOrS cat "general")
        (safe == some "true") with ⟨od, h0, lg0⟩
    cases od with
    | none =>
      rw [searchHandler_miss_none env st query cat safe h0 lg0 hq hmiss hf] at h2
      simp at h2
    | some d0 =>
      rw [searchHandler_miss_some env st query cat safe d0 h0 lg0 hq hmiss hf] at h2
      obtain ⟨hd, hst, _⟩ : ApiResponse.ok d0 = ApiResponse.ok d ∧
          (⟨cacheSet st.cache (requestCacheKey query (jsOrS cat "general")
            (safe == some "true")) ⟨d0, env.now⟩, h0⟩ : ServerState) = st' ∧ lg0 = lg := by
        refine ⟨?_, ?_, ?_⟩ <;> [exact congrArg Prod.fst h2;
          exact congrArg (fun p => p.2.1) h2; exact congrArg (fun p => p.2.2) h2]
      have hd' : d0 = d := by injection hd
      subst hd'
      have hcache : st'.cache = cacheSet st.cache (requestCacheKey query
          (jsOrS cat "general") (safe == some "true")) ⟨d0, env.now⟩ := by
        rw [← hst]
      have hh : cacheGet st'.cache (requestCacheKey query (jsOrS cat "general")
          (safe == some "true")) env'.now = some d0 := by
        rw [hcache]
        unfold cacheGet
        rw [lookupC_cacheSet_self]
        simp [h3]
      rw [searchHandler_hit env' st' query cat safe d0 hq hh]
      exact ⟨rfl, rfl⟩

/-- Witness for C4: a first call against `demoEnvWin` on the empty state,
then the identical call 100 ms later, answered from the cache with the
identical payload and an empty outbound-fetch log. -/
theorem cache_ttl_spec_witness :
    (searchHandler demoEnvWinLater demoFirstState (some "cats") none none).1 =
      .ok demoOkData ∧
    (searchHandler demoEnvWinLater demoFirstState (some "cats") none none).2.2 = [] := by
  exact (cache_ttl_spec [] "" 0).2 demoEnvWin demoEnvWinLater emptyState "cats"
    none none demoOkData demoFirstState demoFirstLog rfl rfl (by decide)

/-! ## C8: cache key -/

theorem append_colon_split : ∀ (a a' : List Char), ':' ∉ a → ':' ∉ a' →
    ∀ (b b' : List Char), a ++ ':' :: b = a' ++ ':' :: b' → a = a' ∧ b = b'
  | [], [], _, _, b, b', h => by simpa using h
  | [], x :: xs, _, ha', b, b', h => by
    simp only [List.nil_append, List.cons_append, List.cons.injEq] at h
    exact absurd (by rw [← h.1]; exact List.mem_cons_self _ _) ha'
  | y :: ys, [], ha, _, b, b', h => by
    simp only [List.nil_append, List.cons_append, List.cons.injEq] at h
    exact absurd (by rw [h.1]; exact List.mem_cons_self _ _) ha
  | y :: ys, x :: xs, ha, ha', b, b', h => by
    simp only [List.cons_append, List.cons.injEq] at h
    obtain ⟨h1, h2⟩ := h
    obtain ⟨e1, e2⟩ := append_colon_split ys xs
      (fun hm => ha (List.mem_cons_of_mem _ hm))
      (fun hm => ha' (List.mem_cons_of_mem _ hm)) b b' h2
    exact ⟨by rw [h1, e1], e2⟩

theorem data_requestCacheKey (q c : String) (s : Bool) :
    (requestCacheKey q c s).data =
      q.data ++ ':' :: (c.data ++ ':' :: (if s then "true" else "false").data) := by
  cases s <;> simp [requestCacheKey, String.data_append]

/-- C8 counterexample: two distinct `(query, category, safe)` triples map
to the same cache key when a component contains `':'`. -/
theorem cache_key_collision_counterexample :
    requestCacheKey "a:b" "c" true = requestCacheKey "a" "b:c" true ∧
    ¬ (("a:b" : String) = "a" ∧ ("c" : String) = "b:c") := by
  refine ⟨rfl, fun h => absurd h.1 (by decide)⟩

/-- C8 (amended): the cache key is the colon-joined concatenation of the
raw (un-normalized) query, the category and the safe flag; distinct
triples can collide when a component contains `':'`, but restricted to
colon-free queries and categories the key determines the triple. -/
theorem cache_key_spec (q q' c c' : String) (s s' : Bool)
    (hq : ':' ∉ q.data) (hq' : ':' ∉ q'.data)
    (hc : ':' ∉ c.data) (hc' : ':' ∉ c'.data) :
    requestCacheKey q c s = requestCacheKey q' c' s' → q = q' ∧ c = c' ∧ s = s' := by
  intro h
  have hd := congrArg String.data h
  rw [data_requestCacheKey, data_requestCacheKey] at hd
  obtain ⟨e1, e2⟩ := append_colon_split q.data q'.data hq hq' _ _ hd
  obtain ⟨e3, e4⟩ := append_colon_split c.data c'.data hc hc' _ _ e2
  refine ⟨String.ext e1, String.ext e3, ?_⟩
  cases s <;> cases s' <;> first | rfl | exact absurd e4 (by decide)

/-- Witness for C8: the injectivity theorem applied at colon-free inputs. -/
theorem cache_key_spec_witness :
    ("cats" : String) = "cats" ∧ ("general" : String) = "general" ∧ True := by
  have h := cache_key_spec "cats" "cats" "general" "general" true true
    (by decide) (by decide) (by decide) (by decide) rfl
  exact ⟨h.1, h.2.1, trivial⟩

/-! ## C5: general-category filtering -/

theorem mapResultsGo_fst (category : String) (l : List RawItem)
    (acc : List SearchResult) (eng : List String) :
    (mapResultsGo category l acc eng).1 = acc ++ l.map (mapResult category) := by
  induction l generalizing acc eng with
  | nil => simp [mapResultsGo]
  | cons r rest ih => simp [mapResultsGo, ih]

/-- C5 counterexample: for the mixed raw set of one image-only item, one
video-only item and one plain text item (none of the first two carrying a
snippet), a `general` request returns all three items — not just the
plain text one. -/
theorem general_keeps_marked_items_counterexample :
    (okData (searchHandler demoEnvMixed emptyState (some "cats") none none).1).map
        (fun d => d.results.map (fun r => r.url)) =
      some ["https://img.example/a", "https://vid.example/v",
        "https://txt.example/t"] ∧
    (okData (searchHandler demoEnvMixed emptyState (some "cats") none none).1).map
        (fun d => d.count) = some 3 :=
  ⟨by decide, by decide⟩

/-- C5 (amended): for the `general` category no exclusion is applied to a
winner's raw results: the filter is the identity and every raw item —
including exclusively image/video-marked items without a snippet — is
mapped into a returned `SearchResult`. -/
theorem general_no_filter (rs : List RawItem) :
    categoryFilter "general" rs = .ok rs ∧
    (mapResults "general" rs).1.length = rs.length := by
  refine ⟨rfl, ?_⟩
  simp [mapResults, mapResultsGo_fst]

/-! ## Structure of a successful aggregation -/

theorem freshSearch_some_fields (env : Env) (h : HealthMap) (q c : String)
    (sb : Bool) (d : ResponseData) (hm : HealthMap) (lg : FetchLog)
    (heq : freshSearch env h q c sb = (some d, hm, lg)) :
    d.query = q ∧ d.category = c ∧
    d.engines = (fsBatch env h q c sb).engines ∧
    d.count = d.results.length ∧ d.results ≠ [] ∧
    d.results = (fsR3 env h q c sb).1 := by
  unfold freshSearch at heq
  split at heq
  · simp at heq
  · next hne =>
    have hd := congrArg Prod.fst heq
    simp only [Prod.fst] at hd
    injection hd with hd
    subst hd
    simp_all [List.isEmpty_iff]

/-! ## Per-item field invariants (C7 machinery) -/

theorem goodResult_mapResult (c : String) (r : RawItem) :
    GoodResult (mapResult c r) := by
  constructor
  · rfl
  · intro host hp
    simp only [mapResult] at hp ⊢
    cases hr : r.url with
    | none =>
      simp only [jsOrS, hr] at hp
      rw [(by decide : parseHost "#" = none)] at hp
      exact Option.noConfusion hp
    | some u =>
      by_cases hu : u = ""
      · simp only [jsOrS, hr, hu, if_pos] at hp
        rw [(by decide : parseHost "#" = none)] at hp
        exact Option.noConfusion hp
      · simp only [jsOrS, hr] at hp ⊢
        rw [if_neg hu] at hp ⊢
        rw [hp]
        rfl

theorem runBatches_results_good (env : Env) (q c : String) (sb : Bool)
    (bs : List (List String)) (h : HealthMap) (iu : Option String) :
    ∀ r ∈ (runBatches env q c sb bs h iu).results, GoodResult r := by
  induction bs generalizing h iu with
  | nil => intro r hr; simp [runBatches] at hr
  | cons b rest ih =>
    intro r hr
    rw [runBatches] at hr
    split at hr
    · simp only at hr
      exact ih _ _ r hr
    · split at hr
      · simp only at hr
        exact ih _ _ r hr
      · split at hr
        · simp only at hr
          exact ih _ _ r hr
        · rcases hmr : mapResults c _ with ⟨res, engs⟩
          rw [hmr] at hr
          simp only at hr
          rw [show res = (mapResults c _).1 from (congrArg Prod.fst hmr).symm] at hr
          rw [mapResults, mapResultsGo_fst] at hr
          simp only [List.nil_append, List.mem_map] at hr
          obtain ⟨x, _, hx⟩ := hr
          rw [← hx]
          exact goodResult_mapResult c x

theorem runBatches_engines_of_empty (env : Env) (q c : String) (sb : Bool)
    (bs : List (List String)) (h : HealthMap) (iu : Option String)
    (hres : (runBatches env q c sb bs h iu).results = []) :
    (runBatches env q c sb bs h iu).engines = [] := by
  induction bs generalizing h iu with
  | nil => rw [runBatches]
  | cons b rest ih =>
    rw [runBatches] at hres ⊢
    rcases hrb : raceBatch env h q c sb b with ⟨ow, h', lg⟩
    rw [hrb] at hres
    cases ow with
    | none =>
      simp only at hres ⊢
      exact ih _ _ hres
    | some p =>
      rcases p with ⟨data, inst⟩
      simp only at hres ⊢
      cases hcf : categoryFilter c data with
      | error e =>
        rw [hcf] at hres
        simp only at hres ⊢
        exact ih _ _ hres
      | ok filtered =>
        rw [hcf] at hres
        by_cases hemp : filtered.isEmpty
        · simp only [hemp, if_true] at hres ⊢
          exact ih _ _ hres
        · simp only [hemp, if_false, Bool.false_eq_true] at hres ⊢
          have hres2 : (mapResults c filtered).1 = filtered.map (mapResult c) := by
            rw [mapResults, mapResultsGo_fst]
            simp
          rw [hres2] at hres
          simp [List.isEmpty_iff] at hres hemp
          exact absurd hres hemp

theorem goodResult_processCard (s c : String) (card : ScrapeCard)
    (r : SearchResult) (h : processCard s c card = some r) : GoodResult r := by
  unfold processCard at h
  split at h
  · exact Option.noConfusion h
  · simp only [] at h
    split at h
    · exact Option.noConfusion h
    · split at h
      · exact Option.noConfusion h
      · injection h with h
        subst h
        refine ⟨rfl, fun host hp => ?_⟩
        simp only at hp ⊢
        rw [hp]
        rfl

theorem processCardsGo_good (s c : String) (cards : List ScrapeCard)
    (acc : List SearchResult) :
    ∀ r ∈ processCardsGo s c cards acc, r ∈ acc ∨ GoodResult r := by
  induction cards generalizing acc with
  | nil => intro r hr; rw [processCardsGo] at hr; exact .inl hr
  | cons card rest ih =>
    intro r hr
    rw [processCardsGo] at hr
    split at hr
    · exact ih _ r hr
    · next r' heq =>
      split at hr
      · exact ih _ r hr
      · rcases ih _ r hr with hin | hg
        · rcases List.mem_append.mp hin with hin | hin
          · exact .inl hin
          · simp at hin
            subst hin
            exact .inr (goodResult_processCard s c card r heq)
        · exact .inr hg

theorem scrapePhase_good (env : Env) (sh : List String) (q c : String)
    (sb : Bool) (iu : Option String) :
    ∀ r ∈ (scrapePhase env sh q c sb iu).1, GoodResult r := by
  intro r hr
  unfold scrapePhase at hr
  split at hr
  · simp at hr
  · simp only [] at hr
    split at hr
    · simp at hr
    · simp only at hr
      rcases processCardsGo_good _ _ _ [] r hr with hin | hg
      · simp at hin
      · exact hg

theorem exceptMapM_mem (f : α → Except Unit β) (l : List α) (ys : List β)
    (h : exceptMapM f l = .ok ys) : ∀ y ∈ ys, ∃ x ∈ l, f x = .ok y := by
  induction l generalizing ys with
  | nil =>
    intro y hy
    simp only [exceptMapM] at h
    injection h with h
    subst h
    simp at hy
  | cons x xs ih =>
    intro y hy
    simp only [exceptMapM] at h
    cases hfx : f x with
    | error e => rw [hfx] at h; exact Except.noConfusion h
    | ok y0 =>
      rw [hfx] at h
      cases hrec : exceptMapM f xs with
      | error e => rw [hrec] at h; exact Except.noConfusion h
      | ok ys0 =>
        rw [hrec] at h
        injection h with h
        subst h
        rcases List.mem_cons.mp hy with hy | hy
        · exact ⟨x, List.mem_cons_self _ _, hy ▸ hfx⟩
        · obtain ⟨x', hx', hfx'⟩ := ih ys0 hrec y hy
          exact ⟨x', List.mem_cons_of_mem _ hx', hfx'⟩

theorem fallbackExtract_mem (flt : RawItem → Except Unit Bool)
    (mp : RawItem → Except Unit SearchResult) (rs : List RawItem)
    (ex : List SearchResult) (h : fallbackExtract flt mp rs = .ok ex) :
    ∀ y ∈ ex, ∃ x, mp x = .ok y := by
  intro y hy
  unfold fallbackExtract at h
  split at h
  · exact Except.noConfusion h
  · obtain ⟨x, _, hx⟩ := exceptMapM_mem mp _ ex h y hy
    exact ⟨x, hx⟩

theorem broadenedFallback_some (env : Env) (q : String) (sb : Bool)
    (flt : RawItem → Except Unit Bool) (mp : RawItem → Except Unit SearchResult)
    (l : List String) (ex : List SearchResult) (inst : String)
    (h : (broadenedFallback env q sb flt mp l).1 = some (ex, inst)) :
    ∃ rs, fallbackExtract flt mp rs = .ok ex := by
  induction l with
  | nil => simp [broadenedFallback] at h
  | cons i rest ih =>
    rw [broadenedFallback] at h
    split at h
    · next rs heq =>
      split at h
      · next extracted hex =>
        split at h
        · simp only at h
          exact ih h
        · simp only at h
          injection h with h
          have he : extracted = ex := congrArg Prod.fst h
          exact ⟨rs, he ▸ hex⟩
      · simp only at h
        exact ih h
    · simp only at h
      exact ih h

theorem goodResult_videosFallbackMap (r : RawItem) (y : SearchResult)
    (h : videosFallbackMap r = .ok y) : GoodResult y := by
  unfold videosFallbackMap at h
  cases hp : parseHost (jsOrS r.url "http://localhost") with
  | none => rw [hp] at h; exact Except.noConfusion h
  | some host =>
    rw [hp] at h
    injection h with h
    subst h
    refine ⟨rfl, fun host' hp' => ?_⟩
    simp only at hp' ⊢
    cases hr : r.url with
    | none =>
      simp only [jsOrS, hr] at hp'
      rw [(by decide : parseHost "#" = none)] at hp'
      exact Option.noConfusion hp'
    | some u =>
      by_cases hu : u = ""
      · simp only [jsOrS, hr, hu, if_pos] at hp'
        rw [(by decide : parseHost "#" = none)] at hp'
        exact Option.noConfusion hp'
      · simp only [jsOrS, hr] at hp' hp
        rw [if_neg hu] at hp' hp
        rw [hp] at hp'
        injection hp'

theorem goodResult_imagesFallbackMap (r : RawItem) (y : SearchResult)
    (h : imagesFallbackMap r = .ok y) : GoodResult y := by
  unfold imagesFallbackMap at h
  cases hp : parseHost (jsOrS r.url "http://localhost") with
  | none => rw [hp] at h; exact Except.noConfusion h
  | some host =>
    rw [hp] at h
    injection h with h
    subst h
    refine ⟨rfl, fun host' hp' => ?_⟩
    simp only at hp' ⊢
    cases hr : r.url with
    | none =>
      simp only [jsOrS, hr] at hp'
      rw [(by decide : parseHost "#" = none)] at hp'
      exact Option.noConfusion hp'
    | some u =>
      by_cases hu : u = ""
      · simp only [jsOrS, hr, hu, if_pos] at hp'
        rw [(by decide : parseHost "#" = none)] at hp'
        exact Option.noConfusion hp'
      · simp only [jsOrS, hr] at hp' hp
        rw [if_neg hu] at hp' hp
        rw [hp] at hp'
        injection hp'

/-! ## Pipeline-level field invariants -/

theorem fsBatch_results_good (env : Env) (h : HealthMap) (q c : String) (sb : Bool) :
    ∀ r ∈ (fsBatch env h q c sb).results, GoodResult r := by
  intro r hr
  unfold fsBatch batchPhase at hr
  exact runBatches_results_good _ _ _ _ _ _ _ r hr

theorem fsScrape_good (env : Env) (h : HealthMap) (q c : String) (sb : Bool) :
    ∀ r ∈ (fsScrape env h q c sb).1, GoodResult r := by
  intro r hr
  unfold fsScrape at hr
  split at hr
  · exact scrapePhase_good _ _ _ _ _ _ r hr
  · simp only at hr
    exact fsBatch_results_good env h q c sb r hr

theorem fsVideos_good (env : Env) (h : HealthMap) (q c : String) (sb : Bool)
    (ex : List SearchResult) (inst : String)
    (heq : (fsVideos env h q c sb).1 = some (ex, inst)) :
    ∀ y ∈ ex, GoodResult y := by
  intro y hy
  unfold fsVideos at heq
  split at heq
  · obtain ⟨rs, hex⟩ := broadenedFallback_some _ _ _ _ _ _ _ _ heq
    obtain ⟨x, hx⟩ := fallbackExtract_mem _ _ _ _ hex y hy
    exact goodResult_videosFallbackMap x y hx
  · simp at heq

theorem fsImages_good (env : Env) (h : HealthMap) (q c : String) (sb : Bool)
    (ex : List SearchResult) (inst : String)
    (heq : (fsImages env h q c sb).1 = some (ex, inst)) :
    ∀ y ∈ ex, GoodResult y := by
  intro y hy
  unfold fsImages at heq
  split at heq
  · obtain ⟨rs, hex⟩ := broadenedFallback_some _ _ _ _ _ _ _ _ heq
    obtain ⟨x, hx⟩ := fallbackExtract_mem _ _ _ _ hex y hy
    exact goodResult_imagesFallbackMap x y hx
  · simp at heq

theorem fsR2_good (env : Env) (h : HealthMap) (q c : String) (sb : Bool) :
    ∀ r ∈ (fsR2 env h q c sb).1, GoodResult r := by
  intro r hr
  unfold fsR2 at hr
  split at hr
  · next ex inst heq =>
    simp only at hr
    exact fsVideos_good env h q c sb ex inst heq r hr
  · simp only at hr
    exact fsScrape_good env h q c sb r hr

theorem fsR3_good (env : Env) (h : HealthMap) (q c : String) (sb : Bool) :
    ∀ r ∈ (fsR3 env h q c sb).1, GoodResult r := by
  intro r hr
  unfold fsR3 at hr
  split at hr
  · next ex inst heq =>
    simp only at hr
    exact fsImages_good env h q c sb ex inst heq r hr
  · exact fsR2_good env h q c sb r hr

/-! ## C7: domain and favicon derivation -/

/-- C7 counterexample: a winner item with no `url` field is returned with
`url = "#"` and `metadata.domain = "localhost"` (from the
`r.url || "http://localhost"` placeholder), so `metadata.domain` is not
the host component of the `url` field — `"#"` has no host at all. -/
theorem domain_not_host_counterexample :
    (okData (searchHandler demoEnvNoUrl emptyState (some "cats") none none).1).map
        (fun d => d.results.map (fun r => (r.url, r.metadata.domain))) =
      some [("#", "localhost")] ∧
    parseHost "#" = none :=
  ⟨by decide, by decide⟩

/-- C7 (amended): for every item of a successful aggregation, `favicon` is
the fixed function of `metadata.domain`; and whenever the item's `url`
field parses as an http(s) URL, `metadata.domain` is exactly its host
(items whose raw `url` was absent carry the `"#"` placeholder URL and the
`"localhost"` or `"unknown"` placeholder domain instead). -/
theorem result_domain_favicon (env : Env) (h : HealthMap) (q c : String)
    (sb : Bool) (d : ResponseData) (hm : HealthMap) (lg : FetchLog)
    (heq : freshSearch env h q c sb = (some d, hm, lg)) :
    ∀ r ∈ d.results, r.favicon = faviconOf r.metadata.domain ∧
      (∀ host, parseHost r.url = some host → r.metadata.domain = host) := by
  intro r hr
  rw [(freshSearch_some_fields env h q c sb d hm lg heq).2.2.2.2.2] at hr
  exact fsR3_good env h q c sb r hr

/-- Witness for C7: the single result of `demoEnvWin`'s aggregation has
domain `txt.example` (the host of its URL) and the derived favicon. -/
theorem result_domain_favicon_witness :
    demoWinResult.favicon = faviconOf demoWinResult.metadata.domain ∧
    demoWinResult.metadata.domain = "txt.example" := by
  have hg := result_domain_favicon demoEnvWin [] "cats" "general" false demoWinData
    demoWinHealth demoWinLog rfl demoWinResult (by decide)
  exact ⟨hg.1, hg.2 "txt.example" (by decide)⟩

/-! ## C10: engines reported only by the batched structured path -/

theorem fsBatch_engines_of_empty (env : Env) (h : HealthMap) (q c : String)
    (sb : Bool) (hres : (fsBatch env h q c sb).results = []) :
    (fsBatch env h q c sb).engines = [] := by
  unfold fsBatch batchPhase at hres ⊢
  exact runBatches_engines_of_empty _ _ _ _ _ _ _ hres

/-- C10: when the batched structured path produced no results (so any
returned results came from the HTML-scrape fallback or a broadened
fallback), `aggregations.engines` of the response is the empty list. -/
theorem fallback_engines_empty (env : Env) (h : HealthMap) (q c : String)
    (sb : Bool) (d : ResponseData) (hm : HealthMap) (lg : FetchLog)
    (hempty : (fsBatch env h q c sb).results = [])
    (heq : freshSearch env h q c sb = (some d, hm, lg)) :
    d.engines = [] := by
  rw [(freshSearch_some_fields env h q c sb d hm lg heq).2.2.1]
  exact fsBatch_engines_of_empty env h q c sb hempty

/-- Witness for C10: in `demoEnvVideoFb` the batch path is empty and the
broadened videos fallback supplies the single result, whose metadata does
carry an `engine` field — yet `aggregations.engines` is empty. -/
theorem fallback_engines_empty_witness :
    demoFbData.engines = [] ∧
    demoFbData.results.map (fun r => r.metadata.engine) = [some "youtube"] := by
  refine ⟨fallback_engines_empty demoEnvVideoFb [] "cats" "videos" false demoFbData
    demoFbHealth demoFbLog (by decide) rfl, by decide⟩

/-! ## C6: error contract of the search endpoint -/

/-- C6: the endpoint returns 400 with `Query is required` exactly when `q`
is absent or empty; it returns 404 with the `No results found` error
exactly when the query is present and non-empty, the cache misses, and the
whole aggregation (batches, scrape fallback, broadened fallbacks) is
exhausted with zero results; and every response is one of 400, 404 or 200
— no individual instance failure surfaces as any other response. -/
theorem error_response_contract (env : Env) (st : ServerState) (q cat safe : Option String) :
    ((searchHandler env st q cat safe).1.status = 400 ↔ q = none ∨ q = some "") ∧
    ((searchHandler env st q cat safe).1.status = 400 →
      (searchHandler env st q cat safe).1.errorMsg = some "Query is required") ∧
    ((searchHandler env st q cat safe).1.status = 404 ↔
      (∃ query, q = some query ∧ ¬ query = "" ∧
        cacheGet st.cache (requestCacheKey query (jsOrS cat "general")
          (safe == some "true")) env.now = none ∧
        (freshSearch env st.health query (jsOrS cat "general")
          (safe == some "true")).1 = none)) ∧
    ((searchHandler env st q cat safe).1.status = 404 →
      (searchHandler env st q cat safe).1.errorMsg =
        some "No results found. Please try a different query.") ∧
    ((searchHandler env st q cat safe).1.status = 400 ∨
      (searchHandler env st q cat safe).1.status = 404 ∨
      (searchHandler env st q cat safe).1.status = 200) := by
  cases q with
  | none => simp [searchHandler, ApiResponse.status, ApiResponse.errorMsg]
  | some query =>
    by_cases hq : query = ""
    · subst hq
      simp [searchHandler, ApiResponse.status, ApiResponse.errorMsg]
    · cases hc : cacheGet st.cache (requestCacheKey query (jsOrS cat "general")
          (safe == some "true")) env.now with
      | some d =>
        rw [searchHandler_hit env st query cat safe d hq hc]
        simp [ApiResponse.status, ApiResponse.errorMsg, hq, hc]
      | none =>
        rcases hf : freshSearch env st.health query (jsOrS cat "general")
            (safe == some "true") with ⟨od, h', lg'⟩
        cases od with
        | some d =>
          rw [searchHandler_miss_some env st query cat safe d h' lg' hq hc hf]
          simp [ApiResponse.status, ApiResponse.errorMsg, hq, hc, hf]
        | none =>
          rw [searchHandler_miss_none env st query cat safe h' lg' hq hc hf]
          simp [ApiResponse.status, ApiResponse.errorMsg, hq, hc, hf]

/-- Witness for C6: with every outbound call failing, the query `cats`
yields status 404 with the `No results found` error body. -/
theorem error_response_contract_witness :
    (searchHandler demoEnvFail emptyState (some "cats") none none).1.status = 404 ∧
    (searchHandler demoEnvFail emptyState (some "cats") none none).1.errorMsg =
      some "No results found. Please try a different query." := by
  have h := error_response_contract demoEnvFail emptyState (some "cats") none none
  have h404 := h.2.2.1.mpr ⟨"cats", rfl, by decide, rfl, rfl⟩
  exact ⟨h404, h.2.2.2.1 h404⟩

/-! ## C2: per-task extraction strategy -/

theorem tryCategories_log_json (env : Env) (inst q c : String) (sb ab : Bool)
    (l : List String) :
    ∀ t ∈ (tryCategories env inst q c sb ab l).2, t.isHtml = false := by
  induction l with
  | nil => intro t ht; simp [tryCategories] at ht
  | cons cn rest ih =>
    intro t ht
    rw [tryCategories] at ht
    simp only [] at ht
    split at ht
    · split at ht
      · simp at ht
        subst ht
        rfl
      · simp only at ht
        rcases List.mem_cons.mp ht with h | h
        · subst h; rfl
        · exact ih t h
    · simp only at ht
      rcases List.mem_cons.mp ht with h | h
      · subst h; rfl
      · exact ih t h

theorem fetchFromInstance_log_json (env : Env) (inst q c : String) (sb ab : Bool) :
    ∀ t ∈ (fetchFromInstance env inst q c sb ab).2, t.isHtml = false :=
  tryCategories_log_json env inst q c sb ab (categoriesToTry c)

theorem batchTask_log_json (env : Env) (h : HealthMap) (inst q c : String)
    (sb ab : Bool) (now : Nat) :
    ∀ t ∈ (batchTask env h inst q c sb ab now).2.2, t.isHtml = false := by
  intro t ht
  unfold batchTask at ht
  rcases hfi : fetchFromInstance env inst q c sb ab with ⟨res, lg⟩
  rw [hfi] at ht
  cases res with
  | none =>
    simp only at ht
    exact fetchFromInstance_log_json env inst q c sb ab t (by rw [hfi]; exact ht)
  | some data =>
    simp only at ht
    exact fetchFromInstance_log_json env inst q c sb ab t (by rw [hfi]; exact ht)

theorem abortTasks_log_json (env : Env) (h : HealthMap) (q c : String)
    (sb : Bool) (l : List String) :
    ∀ t ∈ (abortTasks env h q c sb l).2, t.isHtml = false := by
  induction l generalizing h with
  | nil => intro t ht; simp [abortTasks] at ht
  | cons i rest ih =>
    intro t ht
    rw [abortTasks] at ht
    simp only [] at ht
    rcases List.mem_append.mp ht with hm | hm
    · exact batchTask_log_json env h i q c sb true env.now t hm
    · exact ih _ t hm

theorem raceBatch_log_json (env : Env) (h : HealthMap) (q c : String)
    (sb : Bool) (l : List String) :
    ∀ t ∈ (raceBatch env h q c sb l).2.2, t.isHtml = false := by
  induction l generalizing h with
  | nil => intro t ht; simp [raceBatch] at ht
  | cons i rest ih =>
    intro t ht
    rw [raceBatch] at ht
    split at ht
    · next w h' lg heq =>
      simp only [] at ht
      rcases List.mem_append.mp ht with hm | hm
      · have := batchTask_log_json env h i q c sb false env.now t
        rw [heq] at this
        exact this hm
      · exact abortTasks_log_json env h' q c sb rest t hm
    · next h' lg heq =>
      simp only [] at ht
      rcases List.mem_append.mp ht with hm | hm
      · have := batchTask_log_json env h i q c sb false env.now t
        rw [heq] at this
        exact this hm
      · exact ih _ t hm

theorem runBatches_log_json (env : Env) (q c : String) (sb : Bool)
    (bs : List (List String)) (h : HealthMap) (iu : Option String) :
    ∀ t ∈ (runBatches env q c sb bs h iu).log, t.isHtml = false := by
  induction bs generalizing h iu with
  | nil => intro t ht; simp [runBatches] at ht
  | cons b rest ih =>
    intro t ht
    rw [runBatches] at ht
    rcases hrb : raceBatch env h q c sb b with ⟨ow, h', lg⟩
    rw [hrb] at ht
    have hlg : ∀ t ∈ lg, FetchTag.isHtml t = false := by
      have := raceBatch_log_json env h q c sb b
      rw [hrb] at this
      exact this
    cases ow with
    | none =>
      simp only at ht
      rcases List.mem_append.mp ht with hm | hm
      · exact hlg t hm
      · exact ih _ _ t hm
    | some p =>
      rcases p with ⟨data, inst⟩
      simp only at ht
      cases hcf : categoryFilter c data with
      | error e =>
        rw [hcf] at ht
        simp only at ht
        rcases List.mem_append.mp ht with hm | hm
        · exact hlg t hm
        · exact ih _ _ t hm
      | ok filtered =>
        rw [hcf] at ht
        by_cases hemp : filtered.isEmpty
        · simp only [hemp, if_true] at ht
          rcases List.mem_append.mp ht with hm | hm
          · exact hlg t hm
          · exact ih _ _ t hm
        · simp only [hemp, if_false, Bool.false_eq_true] at ht
          exact hlg t ht

theorem broadenedFallback_log_json (env : Env) (q : String) (sb : Bool)
    (flt : RawItem → Except Unit Bool) (mp : RawItem → Except Unit SearchResult)
    (l : List String) :
    ∀ t ∈ (broadenedFallback env q sb flt mp l).2, t.isHtml = false := by
  induction l with
  | nil => intro t ht; simp [broadenedFallback] at ht
  | cons i rest ih =>
    intro t ht
    rw [broadenedFallback] at ht
    split at ht
    · split at ht
      · split at ht
        · simp only at ht
          rcases List.mem_cons.mp ht with hm | hm
          · subst hm; rfl
          · exact ih t hm
        · simp at ht
          subst ht
          rfl
      · simp only at ht
        rcases List.mem_cons.mp ht with hm | hm
        · subst hm; rfl
        · exact ih t hm
    · simp only at ht
      rcases List.mem_cons.mp ht with hm | hm
      · subst hm; rfl
      · exact ih t hm

theorem scrapePhase_log (env : Env) (sh : List String) (q c : String)
    (sb : Bool) (iu : Option String) :
    (scrapePhase env sh q c sb iu).2.2 =
      (match sh.head? with
       | some s => [FetchTag.htmlFetch (scrapeSearchUrl s q c sb)]
       | none => []) := by
  unfold scrapePhase
  cases hh : sh.head? with
  | none => rfl
  | some s =>
    simp only []
    cases env.fetchHtml (scrapeSearchUrl s q c sb) <;> rfl

theorem fsLog_html_only_scrape (env : Env) (h : HealthMap) (q c : String) (sb : Bool) :
    ∀ t ∈ fsLog env h q c sb, t.isHtml = true →
      ∃ s, (fsShuffled env h).head? = some s ∧
        t = FetchTag.htmlFetch (scrapeSearchUrl s q c sb) := by
  intro t ht hh
  simp only [fsLog, List.mem_append] at ht
  rcases ht with ((hb | hs) | hv) | hw
  · have := runBatches_log_json env q c sb _ _ _ t (by
      have hb2 := hb
      unfold fsBatch batchPhase at hb2
      exact hb2)
    rw [this] at hh
    exact Bool.noConfusion hh
  · unfold fsScrape at hs
    split at hs
    · rw [scrapePhase_log] at hs
      cases hh2 : (fsShuffled env h).head? with
      | none => rw [hh2] at hs; simp at hs
      | some s =>
        rw [hh2] at hs
        simp at hs
        exact ⟨s, rfl, hs⟩
    · simp at hs
  · unfold fsVideos at hv
    split at hv
    · have := broadenedFallback_log_json env q sb videosFallbackFilter
        videosFallbackMap ((fsShuffled env h).take 8) t hv
      rw [this] at hh
      exact Bool.noConfusion hh
    · simp at hv
  · unfold fsImages at hw
    split at hw
    · have := broadenedFallback_log_json env q sb
        (fun r => .ok (imagesFallbackFilter r)) imagesFallbackMap
        ((fsShuffled env h).take 8) t hw
      rw [this] at hh
      exact Bool.noConfusion hh
    · simp at hw

/-- C2 counterexample: with two instances whose every call fails, the
request ends 404, instance `https://b.example` is given up on (its failure
counter was incremented), yet no HTML-scrape request was ever made against
it — the per-instance task never falls back to scraping; only the single
request-level fallback against the first shuffled instance does. -/
theorem task_gives_up_without_scrape_counterexample :
    (searchHandler demoEnvFail emptyState (some "cats") none none).1 = .notFound ∧
    lookupH (searchHandler demoEnvFail emptyState (some "cats") none none).2.1.health
      "https://b.example" = some ⟨1, 5⟩ ∧
    ((searchHandler demoEnvFail emptyState (some "cats") none none).2.2.any
      (fun t => t.isHtml && strStartsWith t.url "https://b.example")) = false :=
  ⟨rfl, rfl, by decide⟩

/-- C2 (amended): each per-instance task performs only structured
(`format=json`) fetches — it never attempts an HTML-scrape against its
instance; the only HTML-scrape request of a whole aggregation is the
single request-level fallback against the first instance of the shuffled
order. -/
theorem task_structured_only (env : Env) (inst q c : String) (sb ab : Bool) :
    (∀ t ∈ (fetchFromInstance env inst q c sb ab).2, t.isHtml = false) ∧
    (∀ h t, t ∈ fsLog env h q c sb → t.isHtml = true →
      ∃ s, (fsShuffled env h).head? = some s ∧
        t = FetchTag.htmlFetch (scrapeSearchUrl s q c sb)) :=
  ⟨fetchFromInstance_log_json env inst q c sb ab,
    fun h => fsLog_html_only_scrape env h q c sb⟩

/-- Witness for C2: the single fetch logged by a failing task is a
structured one. -/
theorem task_structured_only_witness :
    FetchTag.isHtml
      (.jsonFetch "https://a.example/search?q=cats&format=json&safesearch=0") = false :=
  (task_structured_only demoEnvFail "https://a.example" "cats" "general" false false).1
    (.jsonFetch "https://a.example/search?q=cats&format=json&safesearch=0") (by decide)

/-! ## C1: health penalty for cancelled siblings -/

/-- C1 (code behavior at the failing input): the per-task `.catch` handler
penalizes every settled failure, including abort-induced ones.  Against
`demoEnvWin`, the task for `https://w.example` succeeds and records
nothing when not cancelled, but once the batch signal has fired
(`aborted = true`, as happens to every sibling after a batch winner is
selected) the same task fails and its failure counter is incremented —
contradicting the claim that a cancelled sibling is never penalized. -/
theorem cancelled_task_still_penalized :
    (batchTask demoEnvWin [] "https://w.example" "cats" "general" false false 1000).2.1 = [] ∧
    (batchTask demoEnvWin [] "https://w.example" "cats" "general" false true 1000).1 = none ∧
    (batchTask demoEnvWin [] "https://w.example" "cats" "general" false true 1000).2.1 =
      [("https://w.example", ⟨1, 1000⟩)] :=
  ⟨rfl, rfl, rfl⟩

/-! ## C9: pass-through of non-media categories -/

/-- C9 counterexample: `general` is a category string other than `images`
and `videos`, yet its raw value is not forwarded to instances — the single
structured request built for it carries no `categories` query parameter at
all. -/
theorem general_category_not_forwarded_counterexample :
    categoriesToTry "general" = [""] ∧
    (fetchFromInstance demoEnvFail "https://searx.be" "cats" "general" false false).2 =
      [.jsonFetch "https://searx.be/search?q=cats&format=json&safesearch=0"] ∧
    strIncludes "https://searx.be/search?q=cats&format=json&safesearch=0"
      "categories=" = false :=
  ⟨rfl, by decide, by decide⟩

/-- C9 (amended): for every category string other than `images`, `videos`
and the empty string (which defaults to `general`): the request is
accepted, no category filter is applied to the winner's structured
results, the category is echoed verbatim in the response, and the raw
value is forwarded to instances in the `categories` query parameter —
except `general`, which is mapped to an absent `categories` parameter. -/
theorem nonmedia_category_passthrough (cat : String) (h1 : cat ≠ "images")
    (h2 : cat ≠ "videos") (h3 : cat ≠ "") :
    (∀ rs, categoryFilter cat rs = .ok rs) ∧
    categoriesToTry cat = [if cat = "general" then "" else cat] ∧
    (∀ inst q sb, buildSearchUrl inst q cat (if cat = "general" then "" else cat) sb =
      inst ++ "/search?q=" ++ encodeURIComponent q ++ "&format=json" ++
        (if cat = "general" then "" else "&categories=" ++ cat) ++ safeParam sb) ∧
    (∀ env h q sb d hm lg, freshSearch env h q cat sb = (some d, hm, lg) →
      d.category = cat) ∧
    (∀ env st q0 safe, q0 ≠ "" →
      (searchHandler env st (some q0) (some cat) safe).1 ≠ .badRequest) := by
  refine ⟨?_, ?_, ?_, ?_, ?_⟩
  · intro rs
    unfold categoryFilter
    rw [if_neg h1, if_neg h2]
  · unfold categoriesToTry
    rw [if_neg h1, if_neg h2]
  · intro inst q sb
    unfold buildSearchUrl engineParamFor
    rw [if_neg h1, if_neg h2]
    by_cases hg : cat = "general"
    · simp [hg]
    · rw [if_neg hg, if_neg hg, if_neg h3]
      simp
  · intro env h q sb d hm lg heq
    exact (freshSearch_some_fields env h q cat sb d hm lg heq).2.1
  · intro env st q0 safe hq0
    cases hc : cacheGet st.cache (requestCacheKey q0 (jsOrS (some cat) "general")
        (safe == some "true")) env.now with
    | some d =>
      rw [searchHandler_hit env st q0 (some cat) safe d hq0 hc]
      simp
    | none =>
      rcases hf : freshSearch env st.health q0 (jsOrS (some cat) "general")
          (safe == some "true") with ⟨od, h', lg'⟩
      cases od with
      | some d =>
        rw [searchHandler_miss_some env st q0 (some cat) safe d h' lg' hq0 hc hf]
        simp
      | none =>
        rw [searchHandler_miss_none env st q0 (some cat) safe h' lg' hq0 hc hf]
        simp

/-- Witness for C9: the unrecognized category `music` passes through the
filter untouched and is tried as the single category name `music`. -/
theorem nonmedia_category_passthrough_witness :
    categoryFilter "music" [demoTxtItem] = .ok [demoTxtItem] ∧
    categoriesToTry "music" = ["music"] := by
  have h := nonmedia_category_passthrough "music" (by decide) (by decide) (by decide)
  have he : [if ("music" : String) = "general" then "" else "music"] = ["music"] := by
    decide
  exact ⟨h.1 [demoTxtItem], he ▸ h.2.1⟩

end SparkSearch
